import Mathlib

/-!
# Verification of `securedrop/crypto_util.py`

A shallow embedding of the identity-derived key-management core of
SecureDrop's `crypto_util.py`, together with proofs of the behavioural
properties claimed by its specification.

Modelling conventions:

* Python byte strings are `List Nat` with every element `< 256`.
* Python exceptions are `Except` errors; each operation that can raise
  returns an `Except`.
* External collaborators (the scrypt KDF, the GPG engine, the storage
  layer and the filesystem) are passed in as explicit function
  parameters or explicit state, following the interfaces the module
  uses.  They are modelled from the specification's description of the
  collaborator interfaces; everything else is translated directly from
  `crypto_util.py`.
* Where the ORDER of external calls matters (deletion order, fail-fast
  output validation, filesystem probing), the embedded operation also
  returns the list of collaborator events it performed, in order.
-/

/-- Scrypt cost parameters `N`, `r`, `p` (the keyword arguments the module
passes to `scrypt.hash`). -/
structure ScryptParams where
  N : Nat
  r : Nat
  p : Nat
deriving DecidableEq

/-- The single exception class of the module (`CryptoException`), carrying
its message string. -/
structure CryptoException where
  msg : String
deriving DecidableEq

/-- `DICEWARE_SAFE_CHARS` from `crypto_util.py`: the only characters a
codename (or wordlist-derived string) may contain. -/
def DICEWARE_SAFE_CHARS : String :=
  " !#%$&)(+*-1032547698;:=?@acbedgfihkjmlonqpsrutwvyxzABCDEFGHIJKLMNOPQRSTUVWXYZ"

/-- `clean(s, also='')`: raises `CryptoException('invalid input: ' + s)` if
some character of `s` is neither in `DICEWARE_SAFE_CHARS` nor in `also`;
otherwise returns `s` (Python's `str(s)` is the identity on `str`). -/
def clean (s : String) (also : String) : Except CryptoException String :=
  if s.data.all (fun c => DICEWARE_SAFE_CHARS.data.contains c || also.data.contains c)
  then Except.ok s
  else Except.error ⟨"invalid input: " ++ s⟩

/-! ## Base32 (RFC 4648) encoding, as performed by Python's `b32encode`

`hash_codename` post-processes the raw scrypt output with
`base64.b32encode`.  We embed that encoder concretely (5-byte groups map
to 8 alphabet characters, the final partial group is zero-padded and the
unused tail replaced by `=`), define a decoder, and prove the round-trip,
which gives the injectivity of the encoding on byte strings. -/

/-- The base32 alphabet `A`–`Z`, `2`–`7`. -/
def b32chars : List Char :=
  ['A', 'B', 'C', 'D', 'E', 'F', 'G', 'H', 'I', 'J', 'K', 'L', 'M',
   'N', 'O', 'P', 'Q', 'R', 'S', 'T', 'U', 'V', 'W', 'X', 'Y', 'Z',
   '2', '3', '4', '5', '6', '7']

/-- Digit value `0 ≤ d < 32` to alphabet character. -/
def b32alpha (d : Nat) : Char := b32chars.getD d 'A'

/-- Alphabet character back to its digit value (`0` on anything else,
including the padding character). -/
def b32val (c : Char) : Nat :=
  (b32chars.indexOf c) % 32

/-- Encode one full 5-byte group as 8 alphabet characters (big-endian
40-bit number, 5 bits per character). -/
def encGroup (b0 b1 b2 b3 b4 : Nat) : List Char :=
  let n := b0 * 2 ^ 32 + b1 * 2 ^ 24 + b2 * 2 ^ 16 + b3 * 2 ^ 8 + b4
  [b32alpha (n / 2 ^ 35 % 32), b32alpha (n / 2 ^ 30 % 32),
   b32alpha (n / 2 ^ 25 % 32), b32alpha (n / 2 ^ 20 % 32),
   b32alpha (n / 2 ^ 15 % 32), b32alpha (n / 2 ^ 10 % 32),
   b32alpha (n / 2 ^ 5 % 32), b32alpha (n % 32)]

/-- `base64.b32encode`: full 5-byte groups encode to 8 characters; a final
partial group of `r` bytes is zero-padded, encoded, truncated to its
meaningful characters and completed with `=` padding. -/
def b32encode : List Nat → List Char
  | b0 :: b1 :: b2 :: b3 :: b4 :: rest => encGroup b0 b1 b2 b3 b4 ++ b32encode rest
  | [] => []
  | [b0] => (encGroup b0 0 0 0 0).take 2 ++ List.replicate 6 '='
  | [b0, b1] => (encGroup b0 b1 0 0 0).take 4 ++ List.replicate 4 '='
  | [b0, b1, b2] => (encGroup b0 b1 b2 0 0).take 5 ++ List.replicate 3 '='
  | [b0, b1, b2, b3] => (encGroup b0 b1 b2 b3 0).take 7 ++ List.replicate 1 '='

/-- The 40-bit number carried by 8 encoded characters. -/
def decGroupN (c0 c1 c2 c3 c4 c5 c6 c7 : Char) : Nat :=
  b32val c0 * 2 ^ 35 + b32val c1 * 2 ^ 30 + b32val c2 * 2 ^ 25 +
  b32val c3 * 2 ^ 20 + b32val c4 * 2 ^ 15 + b32val c5 * 2 ^ 10 +
  b32val c6 * 2 ^ 5 + b32val c7

/-- Base32 decoder: reads 8 characters at a time; the position of the
first `=` determines how many bytes the final group carries. -/
def b32decode : List Char → List Nat
  | c0 :: c1 :: c2 :: c3 :: c4 :: c5 :: c6 :: c7 :: rest =>
    let n := decGroupN c0 c1 c2 c3 c4 c5 c6 c7
    if c2 = '=' then [n / 2 ^ 32 % 256]
    else if c4 = '=' then [n / 2 ^ 32 % 256, n / 2 ^ 24 % 256]
    else if c5 = '=' then [n / 2 ^ 32 % 256, n / 2 ^ 24 % 256, n / 2 ^ 16 % 256]
    else if c7 = '=' then
      [n / 2 ^ 32 % 256, n / 2 ^ 24 % 256, n / 2 ^ 16 % 256, n / 2 ^ 8 % 256]
    else
      n / 2 ^ 32 % 256 :: n / 2 ^ 24 % 256 :: n / 2 ^ 16 % 256 ::
      n / 2 ^ 8 % 256 :: n % 256 :: b32decode rest
  | _ => []

/-- Decoding inverts the digit map on its domain. -/
theorem b32val_alpha : ∀ d < 32, b32val (b32alpha d) = d := by decide

/-- Alphabet characters are never the padding character. -/
theorem b32alpha_ne_pad : ∀ d < 32, b32alpha d ≠ '=' := by decide

/-- The padding character decodes to digit `0`, like the zero padding bytes
it replaced. -/
theorem b32val_pad : b32val '=' = 0 := by decide

set_option maxHeartbeats 1000000 in
theorem b32decode_encGroup (b0 b1 b2 b3 b4 : Nat)
    (h0 : b0 < 256) (h1 : b1 < 256) (h2 : b2 < 256) (h3 : b3 < 256)
    (h4 : b4 < 256) (rest : List Char) :
    b32decode (encGroup b0 b1 b2 b3 b4 ++ rest) =
      b0 :: b1 :: b2 :: b3 :: b4 :: b32decode rest := by
  have hlt : ∀ m : Nat, m % 32 < 32 := fun m => Nat.mod_lt _ (by norm_num)
  simp only [encGroup, List.cons_append, List.nil_append, b32decode,
    b32alpha_ne_pad _ (hlt _), if_neg, ite_false, if_false, decGroupN,
    b32val_alpha _ (hlt _)]
  norm_num [List.cons.injEq]
  omega

set_option maxHeartbeats 1600000 in
/-- Round-trip: `b32decode` inverts `b32encode` on byte strings. -/
theorem b32decode_b32encode (bs : List Nat) (h : ∀ b ∈ bs, b < 256) :
    b32decode (b32encode bs) = bs := by
  induction bs using b32encode.induct with
  | case1 b0 b1 b2 b3 b4 rest ih =>
    rw [b32encode, b32decode_encGroup b0 b1 b2 b3 b4
      (h _ (by simp)) (h _ (by simp)) (h _ (by simp)) (h _ (by simp))
      (h _ (by simp)) (b32encode rest),
      ih (fun b hb => h b (by simp [hb]))]
  | case2 => rfl
  | case3 b0 =>
    have hb0 := h b0 (by simp)
    have hlt : ∀ m : Nat, m % 32 < 32 := fun m => Nat.mod_lt _ (by norm_num)
    simp only [b32encode, encGroup, List.take, List.replicate, List.cons_append,
      List.nil_append, b32decode, decGroupN, b32val_alpha _ (hlt _),
      b32alpha_ne_pad _ (hlt _), b32val_pad, ite_true, ite_false, if_true,
      if_false]
    norm_num [List.cons.injEq]
    omega
  | case4 b0 b1 =>
    have hb0 := h b0 (by simp)
    have hb1 := h b1 (by simp)
    have hlt : ∀ m : Nat, m % 32 < 32 := fun m => Nat.mod_lt _ (by norm_num)
    simp only [b32encode, encGroup, List.take, List.replicate, List.cons_append,
      List.nil_append, b32decode, decGroupN, b32val_alpha _ (hlt _),
      b32alpha_ne_pad _ (hlt _), b32val_pad, ite_true, ite_false, if_true,
      if_false]
    norm_num [List.cons.injEq]
    omega
  | case5 b0 b1 b2 =>
    have hb0 := h b0 (by simp)
    have hb1 := h b1 (by simp)
    have hb2 := h b2 (by simp)
    have hlt : ∀ m : Nat, m % 32 < 32 := fun m => Nat.mod_lt _ (by norm_num)
    simp only [b32encode, encGroup, List.take, List.replicate, List.cons_append,
      List.nil_append, b32decode, decGroupN, b32val_alpha _ (hlt _),
      b32alpha_ne_pad _ (hlt _), b32val_pad, ite_true, ite_false, if_true,
      if_false]
    norm_num [List.cons.injEq]
    omega
  | case6 b0 b1 b2 b3 =>
    have hb0 := h b0 (by simp)
    have hb1 := h b1 (by simp)
    have hb2 := h b2 (by simp)
    have hb3 := h b3 (by simp)
    have hlt : ∀ m : Nat, m % 32 < 32 := fun m => Nat.mod_lt _ (by norm_num)
    simp only [b32encode, encGroup, List.take, List.replicate, List.cons_append,
      List.nil_append, b32decode, decGroupN, b32val_alpha _ (hlt _),
      b32alpha_ne_pad _ (hlt _), b32val_pad, ite_true, ite_false, if_true,
      if_false]
    norm_num [List.cons.injEq]
    omega

/-! ## Codename hashing

`hash_codename(codename, salt=None)` sanitizes the codename with `clean`,
derives `scrypt.hash(clean(codename), salt, **scrypt_params)` and base32
encodes the result.  The default salt is `scrypt_id_pepper`.  The scrypt
primitive is an external collaborator: it enters the embedding as an
explicit function argument `kdf` from password and salt (and the cost
parameters) to the raw derived bytes. -/

/-- `hash_codename`: `b32encode(scrypt.hash(clean(codename), salt,
**scrypt_params))` with `salt` defaulting to the identity pepper; a
`clean` failure propagates. -/
def hash_codename (kdf : String → String → ScryptParams → List Nat)
    (params : ScryptParams) (id_pepper : String) (codename : String)
    (salt : Option String) : Except CryptoException String :=
  let s := salt.getD id_pepper
  match clean codename "" with
  | Except.error e => Except.error e
  | Except.ok c => Except.ok (String.mk (b32encode (kdf c s params)))

/-! ## Construction (`CryptoUtil.__init__` and `do_runtime_tests`) -/

/-- The configuration arguments of `CryptoUtil.__init__`. -/
structure InitArgs where
  scrypt_params : ScryptParams
  scrypt_id_pepper : String
  scrypt_gpg_pepper : String
  securedrop_root : String
  word_list : String
  nouns_file : String
  adjectives_file : String
  gpg_key_dir : String
deriving DecidableEq

/-- The ways construction can fail: the pepper-collision `AssertionError`
from `do_runtime_tests`, or the uncaught `OSError` when the `srm` binary
cannot be invoked. -/
inductive InitError where
  | pepperCollision
  | srmUnavailable
deriving DecidableEq

/-- The state a successfully constructed `CryptoUtil` instance holds
(the `gnupg.GPG` handle itself lives with the external engine). -/
structure CryptoUtil where
  scrypt_params : ScryptParams
  gpg_key_length : Nat
  scrypt_id_pepper : String
  scrypt_gpg_pepper : String
  securedrop_root : String
  word_list : String
  language2words : List (String × List String)
  nouns : List String
  adjectives : List String
deriving DecidableEq

/-- `do_runtime_tests`: raises `AssertionError` when the two peppers are
equal; then invokes `srm` (a missing binary raises an uncaught `OSError`,
a `CalledProcessError` from the no-argument invocation is swallowed). -/
def do_runtime_tests (id_pepper gpg_pepper : String) (srmPresent : Bool) :
    Except InitError Unit :=
  if id_pepper = gpg_pepper then Except.error InitError.pepperCollision
  else if srmPresent then Except.ok () else Except.error InitError.srmUnavailable

/-- `CryptoUtil.__init__`: selects trivially cheap scrypt parameters and a
1024-bit GPG key exactly when the environment variable `SECUREDROP_ENV`
equals `"test"`, stores the peppers, runs `do_runtime_tests` (so a pepper
collision aborts construction before any request can be served), starts
with an empty wordlist cache and reads the nouns and adjectives files.
`env` is the value of `SECUREDROP_ENV`; `fsRead` is the filesystem
collaborator (`io.open(...).read().splitlines()`). -/
def cryptoUtilInit (env : Option String) (srmPresent : Bool)
    (fsRead : String → List String) (args : InitArgs) :
    Except InitError CryptoUtil :=
  let params := if env = some "test" then ScryptParams.mk 2 1 1
                else args.scrypt_params
  let klen := if env = some "test" then 1024 else 4096
  match do_runtime_tests args.scrypt_id_pepper args.scrypt_gpg_pepper srmPresent with
  | Except.error e => Except.error e
  | Except.ok _ => Except.ok
      { scrypt_params := params
        gpg_key_length := klen
        scrypt_id_pepper := args.scrypt_id_pepper
        scrypt_gpg_pepper := args.scrypt_gpg_pepper
        securedrop_root := args.securedrop_root
        word_list := args.word_list
        language2words := []
        nouns := fsRead args.nouns_file
        adjectives := fsRead args.adjectives_file }

/-! ## Wordlist cache (`get_wordlist`)

The filesystem is the external collaborator: `fsExists` models
`os.path.exists` and `fsRead` models reading and splitting a file.  The
returned event list records, in order, which filesystem calls the
operation performed (`probe` for the existence check, `readFile` for the
actual read). -/

/-- A filesystem action performed by `get_wordlist`. -/
inductive WlEvent where
  | probe (path : String)
  | readFile (path : String)
deriving DecidableEq

/-- `os.path.join(securedrop_root, 'wordlists', locale + '.txt')`. -/
def wordlistPath (cu : CryptoUtil) (locale : String) : String :=
  cu.securedrop_root ++ "/wordlists/" ++ locale ++ ".txt"

/-- `get_wordlist(locale)`: a cached locale is answered from
`self.__language2words` with no filesystem access; otherwise a locale
other than `'en'` probes `securedrop_root/wordlists/locale.txt` and reads
it if present, falling back to the configured `word_list` file; `'en'`
reads `word_list` directly.  The loaded list is cached under the
requested locale key. -/
def get_wordlist (fsExists : String → Bool) (fsRead : String → List String)
    (cu : CryptoUtil) (locale : String) :
    List String × CryptoUtil × List WlEvent :=
  match cu.language2words.lookup locale with
  | some ws => (ws, cu, [])
  | none =>
    if locale ≠ "en" then
      let path := wordlistPath cu locale
      let wordlist_path := if fsExists path then path else cu.word_list
      let content := fsRead wordlist_path
      (content,
       { cu with language2words := (locale, content) :: cu.language2words },
       [WlEvent.probe path, WlEvent.readFile wordlist_path])
    else
      let content := fsRead cu.word_list
      (content,
       { cu with language2words := (locale, content) :: cu.language2words },
       [WlEvent.readFile cu.word_list])

/-! ## The GPG keyring (`getkey`, `delete_reply_keypair`, `export_pubkey`)

The engine's keyring is the shared external state: a list of public keys
(fingerprint plus uid strings) and the set of secret-key fingerprints.
`delete_reply_keypair` also returns the engine deletions it issued, in
order, because the private-before-public order is part of the claims. -/

/-- One public key as `gpg.list_keys()` presents it: its fingerprint and
its uid strings. -/
structure GpgKey where
  fingerprint : String
  uids : List String
deriving DecidableEq

/-- Python's `in` on strings: `needle` occurs as a contiguous substring. -/
def listContainsSeq (needle : List Char) : List Char → Bool
  | [] => needle.isEmpty
  | c :: rest => needle.isPrefixOf (c :: rest) || listContainsSeq needle rest

/-- `needle in hay` for strings. -/
def strContains (hay needle : String) : Bool :=
  listContainsSeq needle.data hay.data

/-- The per-key test of `getkey`'s inner loop: some uid of the key
contains `name`. -/
def keyMatches (name : String) (k : GpgKey) : Bool :=
  k.uids.any (fun uid => strContains uid name)

/-- `getkey(name)`: fingerprint of the first listed key one of whose uids
contains `name`, else `None`. -/
def getkey (keys : List GpgKey) (name : String) : Option String :=
  (keys.find? (keyMatches name)).map GpgKey.fingerprint

/-- The engine's keyring: public keys and secret-key fingerprints. -/
structure GpgKeyring where
  pubKeys : List GpgKey
  secKeys : List String
deriving DecidableEq

/-- A deletion the engine was asked to perform. -/
inductive DelEvent where
  | delPrivate (f : String)
  | delPublic (f : String)
deriving DecidableEq

/-- `delete_reply_keypair(source_filesystem_id)`: returns immediately when
`getkey` finds no key; otherwise asks the engine to delete the private
key first (`delete_keys(key, True)`) and then the public key
(`delete_keys(key)`). -/
def delete_reply_keypair (st : GpgKeyring) (name : String) :
    GpgKeyring × List DelEvent :=
  match getkey st.pubKeys name with
  | none => (st, [])
  | some f =>
    ({ pubKeys := st.pubKeys.filter (fun k => k.fingerprint ≠ f),
       secKeys := st.secKeys.filter (fun s => s ≠ f) },
     [DelEvent.delPrivate f, DelEvent.delPublic f])

/-- `export_pubkey(name)`: resolves the fingerprint with `getkey` — which
yields `None` when no key matches — and unconditionally passes the result
to `gpg.export_keys`.  The module raises nothing here, so the `Except`
error channel (present so that the claimed `KeyNotFoundError` behaviour
is statable) is never used. -/
def export_pubkey (engineExport : Option String → String)
    (keys : List GpgKey) (name : String) : Except CryptoException String :=
  Except.ok (engineExport (getkey keys name))

/-! ## `encrypt` and `decrypt`

`current_app.storage.verify` and `gpg.encrypt` / `gpg.decrypt` are the
external collaborators.  `encrypt` reports the collaborator calls it made
in order, because fail-fast output validation is part of the claims. -/

/-- What `gpg.encrypt` returns: success flag, ciphertext and diagnostic
text. -/
structure GpgEncResult where
  ok : Bool
  data : List Nat
  stderr : String
deriving DecidableEq

/-- What `gpg.decrypt` returns (the module reads only `.data`, but the
engine does report success). -/
structure GpgDecResult where
  ok : Bool
  data : List Nat
  stderr : String
deriving DecidableEq

/-- The error outcomes of `encrypt`: the storage collaborator rejected the
output path, or the engine did not report success
(`CryptoException(out.stderr)`). -/
inductive EncError where
  | storageError
  | cryptoError (msg : String)
deriving DecidableEq

/-- A collaborator call performed by `encrypt`. -/
inductive EncEvent where
  | verifyOutput (path : String)
  | engineEncrypt (fprs : List String)
deriving DecidableEq

/-- The `fingerprints` argument of `encrypt`: a bare string or a
list/tuple of strings. -/
inductive FprArg where
  | one (s : String)
  | many (l : List String)
deriving DecidableEq

/-- The `isinstance` coercion: a bare fingerprint becomes `[fingerprint]`. -/
def coerceFprs : FprArg → List String
  | FprArg.one s => [s]
  | FprArg.many l => l

/-- `fpr.replace(' ', '')`: every space character is removed. -/
def stripSpaces (s : String) : String :=
  String.mk (s.data.filter (fun c => c ≠ ' '))

/-- The body of `encrypt` after output validation: coerce the fingerprint
argument to a list, remove spaces, call the engine, and raise
`CryptoException(out.stderr)` unless the engine reports success. -/
def encryptBody
    (engine : List Nat → List String → Option String → GpgEncResult)
    (plaintext : List Nat) (fingerprints : FprArg) (output : Option String) :
    Except EncError (List Nat) × List EncEvent :=
  let fl := (coerceFprs fingerprints).map stripSpaces
  let out := engine plaintext fl output
  (if out.ok then Except.ok out.data else Except.error (EncError.cryptoError out.stderr),
   [EncEvent.engineEncrypt fl])

/-- `encrypt(plaintext, fingerprints, output=None)`: a truthy output path
(`if output:` — `None` and the empty string are falsy) is validated by
the storage collaborator before anything else; a validation failure
propagates with no encryption work.  Then `encryptBody` runs. -/
def encrypt (verify : String → Bool)
    (engine : List Nat → List String → Option String → GpgEncResult)
    (plaintext : List Nat) (fingerprints : FprArg) (output : Option String) :
    Except EncError (List Nat) × List EncEvent :=
  match output with
  | some o =>
    if o = "" then encryptBody engine plaintext fingerprints output
    else if verify o then
      let r := encryptBody engine plaintext fingerprints output
      (r.1, EncEvent.verifyOutput o :: r.2)
    else (Except.error EncError.storageError, [EncEvent.verifyOutput o])
  | none => encryptBody engine plaintext fingerprints output

/-- `decrypt(secret, ciphertext)`: recomputes the key passphrase with
`hash_codename(secret, salt=scrypt_gpg_pepper)` and returns
`gpg.decrypt(ciphertext, passphrase=...).data` — the engine's `data`
field, with no inspection of the engine's success flag. -/
def decrypt (kdf : String → String → ScryptParams → List Nat)
    (params : ScryptParams) (id_pepper gpg_pepper : String)
    (engineDecrypt : List Nat → String → GpgDecResult)
    (secret : String) (ciphertext : List Nat) :
    Except CryptoException (List Nat) :=
  match hash_codename kdf params id_pepper secret (some gpg_pepper) with
  | Except.error e => Except.error e
  | Except.ok h => Except.ok (engineDecrypt ciphertext h).data

/-! ## Claims -/

/-- C8: for every string `s` and extra-allowed set, the sanitizer raises
the invalid-input error exactly when some character of `s` is outside
`DICEWARE_SAFE_CHARS` and not in `also`; otherwise it returns `s`
unchanged (and, being a pure function, has no side effects).  The two
implications cover both directions of the "if and only if", since the two
outcomes are mutually exclusive. -/
theorem claim_C8_sanitize (s also : String) :
    ((∃ c ∈ s.data, c ∉ DICEWARE_SAFE_CHARS.data ∧ c ∉ also.data) →
      clean s also = Except.error ⟨"invalid input: " ++ s⟩) ∧
    ((∀ c ∈ s.data, c ∈ DICEWARE_SAFE_CHARS.data ∨ c ∈ also.data) →
      clean s also = Except.ok s) := by
  have hcond : (s.data.all fun c =>
      DICEWARE_SAFE_CHARS.data.contains c || also.data.contains c) = true ↔
      ∀ c ∈ s.data, c ∈ DICEWARE_SAFE_CHARS.data ∨ c ∈ also.data := by
    simp [List.all_eq_true]
  constructor
  · rintro ⟨c, hc, h1, h2⟩
    have hneg : ¬ ((s.data.all fun c =>
        DICEWARE_SAFE_CHARS.data.contains c || also.data.contains c) = true) := by
      rw [hcond]
      intro hall
      rcases hall c hc with h | h
      · exact h1 h
      · exact h2 h
    unfold clean
    rw [if_neg hneg]
  · intro hall
    unfold clean
    rw [if_pos (hcond.mpr hall)]

/-- C8 witness: `clean("[]")` raises the invalid-input error and
`clean("Helloworld")` returns the string unchanged. -/
theorem claim_C8_sanitize_witness :
    clean "[]" "" = Except.error ⟨"invalid input: []"⟩ ∧
    clean "Helloworld" "" = Except.ok "Helloworld" :=
  ⟨(claim_C8_sanitize "[]" "").1 (by decide),
   (claim_C8_sanitize "Helloworld" "").2 (by decide)⟩

/-- C1: at initialization — before any request can be served, since the
check runs inside the constructor — equal peppers abort with the
pepper-collision error; distinct peppers never produce that error, and
construction succeeds outright whenever the srm binary is present. -/
theorem claim_C1_pepper_check (env : Option String) (srm : Bool)
    (fsRead : String → List String) (args : InitArgs) :
    (args.scrypt_id_pepper = args.scrypt_gpg_pepper →
      cryptoUtilInit env srm fsRead args = Except.error InitError.pepperCollision) ∧
    (args.scrypt_id_pepper ≠ args.scrypt_gpg_pepper →
      cryptoUtilInit env srm fsRead args ≠ Except.error InitError.pepperCollision ∧
      (srm = true →
        ∃ cu, cryptoUtilInit env srm fsRead args = Except.ok cu)) := by
  unfold cryptoUtilInit do_runtime_tests
  constructor
  · intro h
    rw [if_pos h]
  · intro h
    rw [if_neg h]
    cases srm
    · simp
    · simp

/-- C1 witness: identical peppers `"A"`, `"A"` make construction fail with
the pepper-collision error; distinct peppers `"A"`, `"B"` do not. -/
theorem claim_C1_pepper_check_witness :
    cryptoUtilInit none true (fun _ => []) (InitArgs.mk ⟨16384, 8, 1⟩ "A" "A" "/sd" "/wl" "/n" "/adj" "/gpg") =
      Except.error InitError.pepperCollision ∧
    cryptoUtilInit none true (fun _ => []) (InitArgs.mk ⟨16384, 8, 1⟩ "A" "B" "/sd" "/wl" "/n" "/adj" "/gpg") ≠
      Except.error InitError.pepperCollision :=
  ⟨(claim_C1_pepper_check none true (fun _ => [])
      (InitArgs.mk ⟨16384, 8, 1⟩ "A" "A" "/sd" "/wl" "/n" "/adj" "/gpg")).1 (by decide),
   ((claim_C1_pepper_check none true (fun _ => [])
      (InitArgs.mk ⟨16384, 8, 1⟩ "A" "B" "/sd" "/wl" "/n" "/adj" "/gpg")).2 (by decide)).1⟩

/-- Inversion for a successful construction: the stored scrypt parameters
are the test parameters exactly under the explicit test flag, otherwise
the configured ones. -/
theorem cryptoUtilInit_ok_params (env : Option String) (srm : Bool)
    (fsRead : String → List String) (args : InitArgs) (cu : CryptoUtil)
    (h : cryptoUtilInit env srm fsRead args = Except.ok cu) :
    cu.scrypt_params =
      if env = some "test" then ScryptParams.mk 2 1 1 else args.scrypt_params := by
  unfold cryptoUtilInit do_runtime_tests at h
  by_cases hp : args.scrypt_id_pepper = args.scrypt_gpg_pepper
  · rw [if_pos hp] at h
    exact absurd h (by simp)
  · rw [if_neg hp] at h
    cases srm
    · exact absurd h (by simp)
    · simp only [ite_true, if_true, Except.ok.injEq] at h
      rw [← h]

/-- C2: a successfully constructed instance carries the configured scrypt
cost parameters whenever `SECUREDROP_ENV` is not exactly `"test"` (no
other environment value, including absence or near-misses, substitutes
anything); the trivially cheap parameters appear exactly under that
explicit test flag, so substituted parameters imply the flag was set. -/
theorem claim_C2_cost_params (env : Option String) (srm : Bool)
    (fsRead : String → List String) (args : InitArgs) (cu : CryptoUtil)
    (h : cryptoUtilInit env srm fsRead args = Except.ok cu) :
    (env ≠ some "test" → cu.scrypt_params = args.scrypt_params) ∧
    (env = some "test" → cu.scrypt_params = ScryptParams.mk 2 1 1) ∧
    (cu.scrypt_params ≠ args.scrypt_params → env = some "test") := by
  have hcu := cryptoUtilInit_ok_params env srm fsRead args cu h
  by_cases ht : env = some "test"
  · rw [ht, if_pos rfl] at hcu
    exact ⟨fun hne => absurd ht hne, fun _ => hcu, fun _ => ht⟩
  · rw [if_neg ht] at hcu
    exact ⟨fun _ => hcu, fun he => absurd he ht, fun hne => absurd hcu hne⟩

/-- C2 witness: with no `SECUREDROP_ENV` set, the constructed instance
keeps the configured production parameters. -/
theorem claim_C2_cost_params_witness :
    (CryptoUtil.mk ⟨16384, 8, 1⟩ 4096 "A" "B" "/sd" "/wl" [] [] []).scrypt_params =
      (InitArgs.mk ⟨16384, 8, 1⟩ "A" "B" "/sd" "/wl" "/n" "/adj" "/gpg").scrypt_params :=
  (claim_C2_cost_params none true (fun _ => [])
    (InitArgs.mk ⟨16384, 8, 1⟩ "A" "B" "/sd" "/wl" "/n" "/adj" "/gpg")
    (CryptoUtil.mk ⟨16384, 8, 1⟩ 4096 "A" "B" "/sd" "/wl" [] [] [])
    rfl).1 (by decide)

/-- C3: for a codename the sanitizer accepts, the identity hash
(`hash_codename` with the default identity-pepper salt) and the key
passphrase (`hash_codename` salted with the key-encryption pepper) are
unequal whenever the two peppers differ — given that the scrypt
primitive, an external collaborator the module consumes as an opaque
deterministic byte-string function, separates the two salts at this
input.  The module's own contribution, proved here, is that the base32
post-processing never collapses distinct raw derivations. -/
theorem claim_C3_hash_separation
    (kdf : String → String → ScryptParams → List Nat) (params : ScryptParams)
    (p1 p2 codename c : String)
    (hclean : clean codename "" = Except.ok c)
    (hp : p1 ≠ p2)
    (hbytes1 : ∀ b ∈ kdf c p1 params, b < 256)
    (hbytes2 : ∀ b ∈ kdf c p2 params, b < 256)
    (hk : kdf c p1 params ≠ kdf c p2 params) :
    hash_codename kdf params p1 codename none ≠
      hash_codename kdf params p1 codename (some p2) := by
  unfold hash_codename
  rw [hclean]
  simp only [Option.getD_none, Option.getD_some, Option.getD]
  intro h
  apply hk
  have hs : String.mk (b32encode (kdf c p1 params)) =
      String.mk (b32encode (kdf c p2 params)) := by
    exact Except.ok.inj h
  have hl : b32encode (kdf c p1 params) = b32encode (kdf c p2 params) := by
    injection hs
  calc kdf c p1 params
      = b32decode (b32encode (kdf c p1 params)) :=
        (b32decode_b32encode _ hbytes1).symm
    _ = b32decode (b32encode (kdf c p2 params)) := by rw [hl]
    _ = kdf c p2 params := b32decode_b32encode _ hbytes2

/-- A scrypt stand-in that distinguishes the two salts used in the C3
witness. -/
def kdfSep : String → String → ScryptParams → List Nat :=
  fun _ p _ => if p = "A" then [0] else [1]

/-- C3 witness: with peppers `"A"` and `"B"` and a salt-separating KDF,
the identity hash and the key passphrase of `"codename"` differ. -/
theorem claim_C3_hash_separation_witness :
    hash_codename kdfSep ⟨2, 1, 1⟩ "A" "codename" none ≠
      hash_codename kdfSep ⟨2, 1, 1⟩ "A" "codename" (some "B") :=
  claim_C3_hash_separation kdfSep ⟨2, 1, 1⟩ "A" "B" "codename" "codename"
    rfl (by decide) (by decide) (by decide) (by decide)

/-- A scrypt stand-in used in concrete counterexamples and witnesses. -/
def kdfConst : String → String → ScryptParams → List Nat := fun _ _ _ => [0]

/-- An engine whose decrypt always reports failure, with empty data. -/
def decFailEngine : List Nat → String → GpgDecResult :=
  fun _ _ => ⟨false, [], "decryption failed"⟩

/-- C4 counterexample: with an engine that reports decryption failure,
`decrypt` still returns `Except.ok` — the engine's (empty) `data` field —
rather than failing with a decryption error.  The code never consults the
engine's success flag, so the claimed "fails with DecryptionError
whenever the engine reports failure" is false at this input. -/
theorem claim_C4_counterexample :
    (decFailEngine [1] (String.mk (b32encode [0]))).ok = false ∧
    decrypt kdfConst ⟨2, 1, 1⟩ "p1" "p2" decFailEngine "abc" [1] = Except.ok [] :=
  ⟨rfl, rfl⟩

/-- C4 (amended): `decrypt` recomputes the key passphrase from the
codename with the key-encryption pepper (never reading a stored value)
and asks the engine to decrypt with it, but returns the engine's `data`
field unconditionally — also when the engine reports failure, which is
silently passed through as (empty) data; only a sanitizer rejection of
the codename raises. -/
theorem claim_C4_decrypt_amended
    (kdf : String → String → ScryptParams → List Nat) (params : ScryptParams)
    (p1 p2 : String) (engine : List Nat → String → GpgDecResult)
    (secret c : String) (ct : List Nat)
    (hclean : clean secret "" = Except.ok c) :
    decrypt kdf params p1 p2 engine secret ct =
      Except.ok (engine ct (String.mk (b32encode (kdf c p2 params)))).data := by
  unfold decrypt hash_codename
  rw [hclean]
  rfl

/-- C4 amended witness: a successful engine's data is returned. -/
theorem claim_C4_decrypt_amended_witness :
    decrypt kdfConst ⟨2, 1, 1⟩ "q1" "q2" (fun _ _ => ⟨true, [7], ""⟩) "xyz" [9] =
      Except.ok [7] :=
  claim_C4_decrypt_amended kdfConst ⟨2, 1, 1⟩ "q1" "q2"
    (fun _ _ => ⟨true, [7], ""⟩) "xyz" "xyz" [9] rfl

/-- An export engine stand-in that records whether it got a fingerprint. -/
def exportStub : Option String → String :=
  fun o => match o with
  | some _ => "KEYDATA"
  | none => "NOKEY"

/-- C5 counterexample: on an empty keyring no key exists for the identity,
yet `export_pubkey` does not fail with a key-not-found error — it calls
the engine with the `None` fingerprint and returns `Except.ok` with
whatever the engine produced. -/
theorem claim_C5_counterexample :
    getkey [] "someid" = none ∧
    export_pubkey exportStub [] "someid" = Except.ok "NOKEY" :=
  ⟨rfl, rfl⟩

/-- C5 (amended): `export_pubkey` resolves the fingerprint via `getkey`
and asks the engine to export it; when no key exists for the identity it
does not raise a `KeyNotFoundError` but passes the null fingerprint
(`None`) to the engine's export and returns its result as a success. -/
theorem claim_C5_export_amended (engineExport : Option String → String)
    (keys : List GpgKey) (name : String) :
    export_pubkey engineExport keys name =
      Except.ok (engineExport (getkey keys name)) ∧
    (getkey keys name = none →
      export_pubkey engineExport keys name = Except.ok (engineExport none)) := by
  refine ⟨rfl, ?_⟩
  intro h
  unfold export_pubkey
  rw [h]

/-- C5 amended witness: a keyring whose only key does not match the
requested identity makes `export_pubkey` hand `None` to the engine. -/
theorem claim_C5_export_amended_witness :
    export_pubkey exportStub [GpgKey.mk "F9" ["other uid"]] "someid" =
      Except.ok "NOKEY" :=
  (claim_C5_export_amended exportStub [GpgKey.mk "F9" ["other uid"]] "someid").2
    (by decide)

/-- When lookup finds no key, `delete_reply_keypair` is a no-op: the
keyring is unchanged and no engine deletion is issued. -/
theorem delete_reply_keypair_noop (st : GpgKeyring) (name : String)
    (h : getkey st.pubKeys name = none) :
    delete_reply_keypair st name = (st, []) := by
  unfold delete_reply_keypair
  rw [h]

/-- C6: `delete_reply_keypair` is a no-op (no error, no deletions) when no
key exists for the identity; when a key exists the engine deletions are
issued private-half first, public-half second, never in the reverse
order; and — provided the identity matched only the deleted key's
fingerprint, as the spec's one-keypair-per-source model has it — a second
call after a successful deletion finds nothing and is again a no-op. -/
theorem claim_C6_delete (st : GpgKeyring) (name : String) :
    (getkey st.pubKeys name = none → delete_reply_keypair st name = (st, [])) ∧
    (∀ f, getkey st.pubKeys name = some f →
      (delete_reply_keypair st name).2 =
        [DelEvent.delPrivate f, DelEvent.delPublic f]) ∧
    (∀ f, getkey st.pubKeys name = some f →
      (∀ k ∈ st.pubKeys, keyMatches name k = true → k.fingerprint = f) →
      delete_reply_keypair (delete_reply_keypair st name).1 name =
        ((delete_reply_keypair st name).1, [])) := by
  refine ⟨delete_reply_keypair_noop st name, ?_, ?_⟩
  · intro f h
    unfold delete_reply_keypair
    rw [h]
  · intro f h hunique
    apply delete_reply_keypair_noop
    have hpub : (delete_reply_keypair st name).1.pubKeys =
        st.pubKeys.filter (fun k => k.fingerprint ≠ f) := by
      unfold delete_reply_keypair
      rw [h]
    rw [hpub]
    unfold getkey
    rw [Option.map_eq_none']
    rw [List.find?_eq_none]
    intro k hk
    rw [List.mem_filter] at hk
    intro hmatch
    have hf := hunique k hk.1 hmatch
    have := hk.2
    simp [hf] at this

/-- A keyring holding one reply keypair whose uid names identity
`hash1`. -/
def kr1 : GpgKeyring := ⟨[GpgKey.mk "F1" ["SOURCE hash1 mail"]], ["F1"]⟩

/-- C6 witness: on an empty keyring deletion is a no-op; on `kr1` it
deletes private-then-public of `F1`, and a second deletion after the
first is a no-op. -/
theorem claim_C6_delete_witness :
    delete_reply_keypair ⟨[], []⟩ "hash1" = (⟨[], []⟩, []) ∧
    (delete_reply_keypair kr1 "hash1").2 =
      [DelEvent.delPrivate "F1", DelEvent.delPublic "F1"] ∧
    delete_reply_keypair (delete_reply_keypair kr1 "hash1").1 "hash1" =
      ((delete_reply_keypair kr1 "hash1").1, []) :=
  ⟨(claim_C6_delete ⟨[], []⟩ "hash1").1 rfl,
   (claim_C6_delete kr1 "hash1").2.1 "F1" (by decide),
   (claim_C6_delete kr1 "hash1").2.2 "F1" (by decide) (by decide)⟩

/-- The claim's normalization, following its own words: remove every
whitespace character from a fingerprint.  The code's `replace(' ', '')`
removes only the space character, which the counterexample below
separates. -/
def stripAllWhitespace (s : String) : String :=
  String.mk (s.data.filter (fun c => !c.isWhitespace))

/-- An engine whose encrypt always succeeds with empty ciphertext. -/
def encOkEngine : List Nat → List String → Option String → GpgEncResult :=
  fun _ _ _ => ⟨true, [], ""⟩

/-- C7 counterexample: a fingerprint containing a tab is handed to the
engine unchanged — `encrypt` strips only space characters, not every
whitespace character as the claim has it. -/
theorem claim_C7_counterexample :
    (encrypt (fun _ => true) encOkEngine [] (FprArg.one "AB\tCD") none).2 =
      [EncEvent.engineEncrypt ["AB\tCD"]] ∧
    stripAllWhitespace "AB\tCD" = "ABCD" ∧ "AB\tCD" ≠ "ABCD" :=
  ⟨rfl, by decide, by decide⟩

/-- C7 (amended): `encrypt` validates a given (truthy) output path via the
storage collaborator before any encryption work — a rejected path
propagates as the storage error with no engine call, and on an accepted
path the validation event strictly precedes the engine call; it strips
space characters (the separators GPG prints) from every recipient
fingerprint, leaving other whitespace intact; and it raises the error
carrying the engine's diagnostic text exactly when the engine does not
report success, returning the engine's ciphertext otherwise. -/
theorem claim_C7_encrypt_amended (verify : String → Bool)
    (engine : List Nat → List String → Option String → GpgEncResult)
    (pt : List Nat) (fprs : FprArg) (o : String) (ho : o ≠ "") :
    (verify o = false →
      encrypt verify engine pt fprs (some o) =
        (Except.error EncError.storageError, [EncEvent.verifyOutput o])) ∧
    (verify o = true →
      (encrypt verify engine pt fprs (some o)).2 =
        [EncEvent.verifyOutput o,
         EncEvent.engineEncrypt ((coerceFprs fprs).map stripSpaces)]) ∧
    (verify o = true →
      (engine pt ((coerceFprs fprs).map stripSpaces) (some o)).ok = true →
      (encrypt verify engine pt fprs (some o)).1 =
        Except.ok (engine pt ((coerceFprs fprs).map stripSpaces) (some o)).data) ∧
    (verify o = true →
      (engine pt ((coerceFprs fprs).map stripSpaces) (some o)).ok = false →
      (encrypt verify engine pt fprs (some o)).1 =
        Except.error (EncError.cryptoError
          (engine pt ((coerceFprs fprs).map stripSpaces) (some o)).stderr)) := by
  refine ⟨?_, ?_, ?_, ?_⟩
  · intro hv
    simp [encrypt, ho, hv]
  · intro hv
    simp [encrypt, encryptBody, ho, hv]
  · intro hv hok
    simp [encrypt, encryptBody, ho, hv, hok]
  · intro hv hok
    simp [encrypt, encryptBody, ho, hv, hok]

/-- A storage collaborator that accepts every output path. -/
def verifyTrue : String → Bool := fun _ => true

/-- A storage collaborator that rejects every output path. -/
def verifyFalse : String → Bool := fun _ => false

/-- C7 amended witness: a rejected path fails fast with no engine event; an
accepted path validates first and then encrypts with the space-stripped
fingerprint `AABB`, returning the engine's ciphertext. -/
theorem claim_C7_encrypt_amended_witness :
    encrypt verifyFalse encOkEngine [] (FprArg.many ["AA BB"]) (some "/out") =
      (Except.error EncError.storageError, [EncEvent.verifyOutput "/out"]) ∧
    (encrypt verifyTrue encOkEngine [] (FprArg.many ["AA BB"]) (some "/out")).2 =
      [EncEvent.verifyOutput "/out", EncEvent.engineEncrypt ["AABB"]] ∧
    (encrypt verifyTrue encOkEngine [] (FprArg.many ["AA BB"]) (some "/out")).1 =
      Except.ok [] :=
  ⟨(claim_C7_encrypt_amended verifyFalse encOkEngine [] (FprArg.many ["AA BB"])
      "/out" (by decide)).1 rfl,
   (claim_C7_encrypt_amended verifyTrue encOkEngine [] (FprArg.many ["AA BB"])
      "/out" (by decide)).2.1 rfl,
   (claim_C7_encrypt_amended verifyTrue encOkEngine [] (FprArg.many ["AA BB"])
      "/out" (by decide)).2.2.1 rfl rfl⟩

/-- C10: a bare fingerprint string not wrapped in a list behaves exactly
like the one-element list containing it — the `isinstance` coercion wraps
it before whitespace normalization and encryption, for every storage
collaborator, engine, plaintext and output argument. -/
theorem claim_C10_single_fingerprint (verify : String → Bool)
    (engine : List Nat → List String → Option String → GpgEncResult)
    (pt : List Nat) (s : String) (output : Option String) :
    encrypt verify engine pt (FprArg.one s) output =
      encrypt verify engine pt (FprArg.many [s]) output := rfl

/-- A cached locale is answered from the cache, with no filesystem
events. -/
theorem get_wordlist_cached (fsE : String → Bool) (fsR : String → List String)
    (cu : CryptoUtil) (locale : String) (ws : List String)
    (h : cu.language2words.lookup locale = some ws) :
    get_wordlist fsE fsR cu locale = (ws, cu, []) := by
  unfold get_wordlist
  rw [h]

/-- An uncached non-`en` locale whose wordlist file exists loads that file
and caches it under the locale. -/
theorem get_wordlist_miss_file (fsE : String → Bool) (fsR : String → List String)
    (cu : CryptoUtil) (locale : String)
    (h : cu.language2words.lookup locale = none) (hne : locale ≠ "en")
    (hex : fsE (wordlistPath cu locale) = true) :
    get_wordlist fsE fsR cu locale =
      (fsR (wordlistPath cu locale),
       { cu with language2words :=
           (locale, fsR (wordlistPath cu locale)) :: cu.language2words },
       [WlEvent.probe (wordlistPath cu locale),
        WlEvent.readFile (wordlistPath cu locale)]) := by
  simp [get_wordlist, h, hne, hex]

/-- An uncached non-`en` locale with no wordlist file falls back to the
default wordlist, cached under the requested locale. -/
theorem get_wordlist_miss_fallback (fsE : String → Bool)
    (fsR : String → List String) (cu : CryptoUtil) (locale : String)
    (h : cu.language2words.lookup locale = none) (hne : locale ≠ "en")
    (hex : fsE (wordlistPath cu locale) = false) :
    get_wordlist fsE fsR cu locale =
      (fsR cu.word_list,
       { cu with language2words :=
           (locale, fsR cu.word_list) :: cu.language2words },
       [WlEvent.probe (wordlistPath cu locale),
        WlEvent.readFile cu.word_list]) := by
  simp [get_wordlist, h, hne, hex]

/-- Uncached `en` reads the configured default wordlist with no probe. -/
theorem get_wordlist_miss_en (fsE : String → Bool)
    (fsR : String → List String) (cu : CryptoUtil) (locale : String)
    (h : cu.language2words.lookup locale = none) (hen : locale = "en") :
    get_wordlist fsE fsR cu locale =
      (fsR cu.word_list,
       { cu with language2words :=
           (locale, fsR cu.word_list) :: cu.language2words },
       [WlEvent.readFile cu.word_list]) := by
  subst hen
  simp [get_wordlist, h]

/-- C9: `get_wordlist` answers a cached locale from the cache (no
filesystem events); an uncached locale other than `en` loads its own
wordlist file when present and otherwise falls back to the default
English wordlist without raising, caching the result under the requested
locale in both cases — so a repeated call for the same missing locale
performs no filesystem access at all (in particular, no probe) and
returns the same list; an uncached `en` always loads the configured
default wordlist. -/
theorem claim_C9_wordlist (fsE : String → Bool) (fsR : String → List String)
    (cu : CryptoUtil) (locale : String) :
    (∀ ws, cu.language2words.lookup locale = some ws →
      get_wordlist fsE fsR cu locale = (ws, cu, [])) ∧
    (cu.language2words.lookup locale = none → locale ≠ "en" →
      fsE (wordlistPath cu locale) = true →
      get_wordlist fsE fsR cu locale =
        (fsR (wordlistPath cu locale),
         { cu with language2words :=
             (locale, fsR (wordlistPath cu locale)) :: cu.language2words },
         [WlEvent.probe (wordlistPath cu locale),
          WlEvent.readFile (wordlistPath cu locale)])) ∧
    (cu.language2words.lookup locale = none → locale ≠ "en" →
      fsE (wordlistPath cu locale) = false →
      get_wordlist fsE fsR cu locale =
        (fsR cu.word_list,
         { cu with language2words :=
             (locale, fsR cu.word_list) :: cu.language2words },
         [WlEvent.probe (wordlistPath cu locale),
          WlEvent.readFile cu.word_list])) ∧
    (cu.language2words.lookup locale = none → locale = "en" →
      get_wordlist fsE fsR cu locale =
        (fsR cu.word_list,
         { cu with language2words :=
             (locale, fsR cu.word_list) :: cu.language2words },
         [WlEvent.readFile cu.word_list])) ∧
    (cu.language2words.lookup locale = none →
      (get_wordlist fsE fsR (get_wordlist fsE fsR cu locale).2.1 locale).2.2 = [] ∧
      (get_wordlist fsE fsR (get_wordlist fsE fsR cu locale).2.1 locale).1 =
        (get_wordlist fsE fsR cu locale).1) := by
  refine ⟨?_, ?_, ?_, ?_, ?_⟩
  · intro ws h
    exact get_wordlist_cached fsE fsR cu locale ws h
  · intro h hne hex
    exact get_wordlist_miss_file fsE fsR cu locale h hne hex
  · intro h hne hex
    exact get_wordlist_miss_fallback fsE fsR cu locale h hne hex
  · intro h hen
    exact get_wordlist_miss_en fsE fsR cu locale h hen
  · intro h
    by_cases hen : locale = "en"
    · rw [get_wordlist_miss_en fsE fsR cu locale h hen]
      dsimp only
      rw [get_wordlist_cached fsE fsR _ locale (fsR cu.word_list)
        (by simp [List.lookup])]
      exact ⟨rfl, rfl⟩
    · by_cases hex : fsE (wordlistPath cu locale) = true
      · rw [get_wordlist_miss_file fsE fsR cu locale h hen hex]
        dsimp only
        rw [get_wordlist_cached fsE fsR _ locale (fsR (wordlistPath cu locale))
          (by simp [List.lookup])]
        exact ⟨rfl, rfl⟩
      · rw [get_wordlist_miss_fallback fsE fsR cu locale h hen
          (Bool.not_eq_true _ ▸ hex)]
        dsimp only
        rw [get_wordlist_cached fsE fsR _ locale (fsR cu.word_list)
          (by simp [List.lookup])]
        exact ⟨rfl, rfl⟩

/-- A `CryptoUtil` state with a cached `fr` wordlist, for the C9
witness. -/
def cuWl : CryptoUtil :=
  ⟨⟨2, 1, 1⟩, 4096, "A", "B", "/sd", "/wl", [("fr", ["bonjour"])], [], []⟩

/-- A filesystem on which only the `de` locale wordlist exists. -/
def fsE1 : String → Bool := fun p => p = "/sd/wordlists/de.txt"

/-- A filesystem read that tags the content with the path read. -/
def fsR1 : String → List String := fun p => [p]

/-- C9 witness: cached `fr` is served from the cache; present `de` loads
its own file; missing `xx` falls back to the default wordlist; `en` reads
the default; and a second call for the missing `xx` performs no
filesystem events. -/
theorem claim_C9_wordlist_witness :
    get_wordlist fsE1 fsR1 cuWl "fr" = (["bonjour"], cuWl, []) ∧
    get_wordlist fsE1 fsR1 cuWl "de" =
      (["/sd/wordlists/de.txt"],
       { cuWl with language2words :=
           ("de", ["/sd/wordlists/de.txt"]) :: cuWl.language2words },
       [WlEvent.probe "/sd/wordlists/de.txt",
        WlEvent.readFile "/sd/wordlists/de.txt"]) ∧
    get_wordlist fsE1 fsR1 cuWl "xx" =
      (["/wl"],
       { cuWl with language2words := ("xx", ["/wl"]) :: cuWl.language2words },
       [WlEvent.probe "/sd/wordlists/xx.txt", WlEvent.readFile "/wl"]) ∧
    get_wordlist fsE1 fsR1 cuWl "en" =
      (["/wl"],
       { cuWl with language2words := ("en", ["/wl"]) :: cuWl.language2words },
       [WlEvent.readFile "/wl"]) ∧
    (get_wordlist fsE1 fsR1 (get_wordlist fsE1 fsR1 cuWl "xx").2.1 "xx").2.2 = [] :=
  ⟨(claim_C9_wordlist fsE1 fsR1 cuWl "fr").1 ["bonjour"] (by decide),
   (claim_C9_wordlist fsE1 fsR1 cuWl "de").2.1 (by decide) (by decide) (by decide),
   (claim_C9_wordlist fsE1 fsR1 cuWl "xx").2.2.1 (by decide) (by decide) (by decide),
   (claim_C9_wordlist fsE1 fsR1 cuWl "en").2.2.2.1 (by decide) rfl,
   ((claim_C9_wordlist fsE1 fsR1 cuWl "xx").2.2.2.2 (by decide)).1⟩
